import Mathlib

/-!
Verification development for the replicated ticket cache subsystem
(package `redis_stream`): the update envelope types (store.go), the
incoming-replication apply loop and expiration sweep
(replicatedticketcache.go), the in-memory replicator (memory.go) and the
Redis-backed replicator (redisReplicator.SendUpdates).

Shallow embedding conventions:
* Go `sync.Map` fields become association lists `List (String × α)`;
  `Store` is upsert, `Delete`/`LoadAndDelete` is erase, `Range` with
  in-loop deletions becomes a fold over the initial entry list (the
  sweeps decide each entry from its key alone, so this is faithful).
* `time.Now().UnixMilli()` becomes an explicit `nowMs : Int` parameter;
  code that reads the clock several times in one pass is modelled with a
  single observation (the claims under study fix one observation time).
* Serialized payloads are opaque to the cache (it only ever passes them
  to the external protobuf (un)marshaller), so the `Value` string is
  modelled as an inductive `Payload`; `Payload.empty` stands for the
  empty Go string `""`, and unmarshalling of a `garbage` payload fails
  exactly like `proto.Unmarshal` on undecodable bytes.  On failure the
  Go code keeps the zero-valued message, which is `default`.
-/

namespace OM

/-- Model of `pb.Ticket` restricted to the fields the cache reads:
`Id` (written by the apply loop) and `GetExpirationTime()` (read by the
expiration sweep, as a unix-millisecond instant; the protobuf zero value
decodes to the epoch, i.e. `0`). -/
structure TicketPb where
  id : String := ""
  expirationTimeMs : Int := 0
  deriving DecidableEq

/-- Model of `pb.Assignment` restricted to the field the cache reads
(`GetConnection`, used only for logging). -/
structure AssignmentPb where
  connection : String := ""
  deriving DecidableEq

instance : Inhabited TicketPb := ⟨{}⟩
instance : Inhabited AssignmentPb := ⟨{}⟩

/-- Modelled from the spec: the cache "consumes an opaque serializer
(marshal/unmarshal) for Ticket and Assignment payloads; the cache never
inspects payload bytes except through this interface".  A Go payload
string is therefore one of: the empty string, a valid serialization of a
ticket, a valid serialization of an assignment, or undecodable bytes. -/
inductive Payload
  | empty
  | ticketBytes (t : TicketPb)
  | assignmentBytes (a : AssignmentPb)
  | garbage (n : Nat)
  deriving DecidableEq

/-- `proto.Unmarshal` into a `pb.Ticket`: succeeds on a ticket
serialization and on the empty string (which decodes to the zero-valued
message), fails otherwise. -/
def unmarshalTicket : Payload → Option TicketPb
  | .ticketBytes t => some t
  | .empty => some {}
  | _ => none

/-- `proto.Unmarshal` into a `pb.Assignment`. -/
def unmarshalAssignment : Payload → Option AssignmentPb
  | .assignmentBytes a => some a
  | .empty => some {}
  | _ => none

/-! The command enum from store.go (`const ( Ticket = iota; ... )`).
Go declares `Cmd` as a plain `int`, so the model keeps `Nat` and named
constants; an out-of-range command falls through every `switch` case. -/

def Ticket : Nat := 0
def Activate : Nat := 1
def Deactivate : Nat := 2
def Assign : Nat := 3

/-- store.go `StateUpdate`. -/
structure StateUpdate where
  Cmd : Nat
  Key : String
  Value : Payload
  deriving DecidableEq

/-- The error values declared in the redis replicator module, plus the
wrapped "Redis output string conversion error". -/
inductive RedisError
  | NoTicketKeyErr
  | NoTicketDataErr
  | NoAssignmentErr
  | InvalidInputErr
  | ConversionErr
  deriving DecidableEq

/-- store.go `StateResponse`; `Err = none` models `err == nil`. -/
structure StateResponse where
  Result : String
  Err : Option RedisError
  deriving DecidableEq

/-! ### Association-list maps (model of the `sync.Map` fields) -/

/-- `sync.Map.Delete` / `LoadAndDelete`: drop every pair stored under `k`. -/
def mapErase (m : List (String × α)) (k : String) : List (String × α) :=
  m.filter (fun p => decide (p.1 ≠ k))

/-- `sync.Map.Store`: upsert `k ↦ v`. -/
def mapStore (m : List (String × α)) (k : String) (v : α) : List (String × α) :=
  (k, v) :: mapErase m k

/-- `sync.Map.Load`. -/
def mapLookup (m : List (String × α)) (k : String) : Option α :=
  match m with
  | [] => none
  | p :: rest => if p.1 = k then some p.2 else mapLookup rest k

/-- The three state maps owned by `ReplicatedTicketCache`. -/
structure CacheState where
  Tickets : List (String × TicketPb)
  InactiveSet : List (String × Bool)
  Assignments : List (String × AssignmentPb)
  deriving DecidableEq

/-- The empty cache. -/
def emptyCache : CacheState := ⟨[], [], []⟩

/-! ### The apply switch of `IncomingReplicationQueue` -/

/-- One iteration of the drain `switch curUpdate.Cmd` in
`IncomingReplicationQueue` (replicatedticketcache.go:187-233).  Note the
`Ticket`/`Assign` cases: a failed `proto.Unmarshal` is only logged; the
code proceeds to store the (zero-valued) message regardless. -/
def applyStateUpdate (s : CacheState) (u : StateUpdate) : CacheState :=
  if u.Cmd = Ticket then
    -- proto.Unmarshal; on error the zero-valued ticketPb is kept
    let ticketPb := (unmarshalTicket u.Value).getD {}
    -- ticketPb.Id = curUpdate.Key (the id /is/ the replication id)
    let ticketPb := { ticketPb with id := u.Key }
    -- All tickets begin inactive
    { s with InactiveSet := mapStore s.InactiveSet u.Key true,
             Tickets := mapStore s.Tickets u.Key ticketPb }
  else if u.Cmd = Activate then
    { s with InactiveSet := mapErase s.InactiveSet u.Key }
  else if u.Cmd = Deactivate then
    { s with InactiveSet := mapStore s.InactiveSet u.Key true }
  else if u.Cmd = Assign then
    let assignmentPb := (unmarshalAssignment u.Value).getD {}
    { s with Assignments := mapStore s.Assignments u.Key assignmentPb }
  else
    s

/-- Applying a sequence of updates in order (one drain, or the
concatenation of several drain cycles). -/
def applyAll (s : CacheState) (us : List StateUpdate) : CacheState :=
  us.foldl applyStateUpdate s

/-! ### Identity parsing (`strings.Split(id, "-")[0]` + `strconv.ParseInt`) -/

/-- `strings.Split(id, "-")[0]`: the characters before the first `-`
(the whole string when there is none). -/
def splitHead (s : String) : String :=
  String.mk (s.toList.takeWhile (fun c => decide (c ≠ '-')))

/-- Numeric value of a list of decimal digit characters. -/
def digitsVal (ds : List Char) : Nat :=
  ds.foldl (fun acc c => acc * 10 + (c.toNat - 48)) 0

/-- `strconv.ParseInt(s, 10, 64)`, returned as (value, ok).  On a syntax
error Go returns value 0 with a non-nil error; on a range error it
returns the clamped 64-bit value with a non-nil error. -/
def goParseInt (s : String) : Int × Bool :=
  let cs := s.toList
  let signed : Bool × List Char :=
    match cs with
    | '+' :: rest => (false, rest)
    | '-' :: rest => (true, rest)
    | _ => (false, cs)
  let neg := signed.1
  let ds := signed.2
  if ds = [] ∨ ¬ ds.all (fun c => c.isDigit) then (0, false)
  else
    let n := digitsVal ds
    if neg then
      if n ≤ 2 ^ 63 then (-(n : Int), true) else (-(2 ^ 63 : Int), false)
    else
      if n < 2 ^ 63 then ((n : Int), true) else ((2 ^ 63 : Int) - 1, false)

/-- The two TTL entries of `RedisConfig` that the expiration sweep
reads (part_008:32-33). -/
structure RedisConfig where
  OmCacheTicketTtlMs : Int
  OmCacheAssignmentAdditionalTtlMs : Int
  deriving DecidableEq

/-! ### The expiration sweep of `IncomingReplicationQueue`
(replicatedticketcache.go:315-379), one observation time `nowMs`. -/

/-- First pass: `tc.InactiveSet.Range`.  A failed identity parse is
logged and the entry skipped (`return true`); an expired entry has its
ticket `LoadAndDelete`d and is removed from the inactive set. -/
def sweepInactive (cfg : RedisConfig) (nowMs : Int) (s0 : CacheState) : CacheState :=
  (s0.InactiveSet.map Prod.fst).foldl
    (fun s id =>
      let parsed := goParseInt (splitHead id)
      if !parsed.2 then
        -- error; log and go to the next entry
        s
      else if nowMs - parsed.1 > cfg.OmCacheTicketTtlMs then
        { s with Tickets := mapErase s.Tickets id,
                 InactiveSet := mapErase s.InactiveSet id }
      else s)
    s0

/-- Second pass: `tc.Tickets.Range`, deleting any ticket whose own
expiration instant has passed (`time.Now().After(...)`). -/
def sweepTickets (nowMs : Int) (s0 : CacheState) : CacheState :=
  s0.Tickets.foldl
    (fun s p =>
      if nowMs > p.2.expirationTimeMs then
        { s with Tickets := mapErase s.Tickets p.1 }
      else s)
    s0

/-- Third pass: `tc.Assignments.Range`.  A failed identity parse is only
logged — unlike the first pass there is no early return, so the
zero-on-error `ParseInt` value is used in the age comparison. -/
def sweepAssignments (cfg : RedisConfig) (nowMs : Int) (s0 : CacheState) : CacheState :=
  (s0.Assignments.map Prod.fst).foldl
    (fun s id =>
      let parsed := goParseInt (splitHead id)
      if nowMs - parsed.1 >
          cfg.OmCacheTicketTtlMs + cfg.OmCacheAssignmentAdditionalTtlMs then
        { s with Assignments := mapErase s.Assignments id }
      else s)
    s0

/-- The full three-pass expiration sweep run after every drain. -/
def expirationSweep (cfg : RedisConfig) (nowMs : Int) (s : CacheState) : CacheState :=
  sweepAssignments cfg nowMs (sweepTickets nowMs (sweepInactive cfg nowMs s))

/-! ### Decimal rendering (`strconv.FormatInt(x, 10)` / `fmt.Sprintf("%v", n)`) -/

/-- The character of a single decimal digit. -/
def digitChar (n : Nat) : Char := Char.ofNat (48 + n)

/-- Base-10 digit characters of a natural number, most significant
first (the digits `strconv.FormatInt` emits for non-negative input). -/
def natDecimal (n : Nat) : List Char :=
  if _h : n < 10 then [digitChar n]
  else natDecimal (n / 10) ++ [digitChar (n % 10)]
decreasing_by
  exact Nat.div_lt_self (by omega) (by omega)

/-- `strconv.FormatInt(i, 10)` digit characters for an `int64`. -/
def intDecimal (i : Int) : List Char :=
  if i < 0 then '-' :: natDecimal (-i).toNat else natDecimal i.toNat

/-! ### The in-memory replicator (memory.go) -/

/-- The replication-id state of `memoryReplicator`: `replTS` (kept as
its `UnixMilli()` value, the only thing read from it) and `replCount`. -/
structure MemState where
  replTSms : Int
  replCount : Nat
  deriving DecidableEq

/-- The state transition of `getReplId` (memory.go:101-110), with the
call's `time.Now().UnixMilli()` reading passed in as `nowMs`. -/
def stepRepl (nowMs : Int) (st : MemState) : MemState :=
  if nowMs = st.replTSms then { st with replCount := st.replCount + 1 }
  else { replTSms := nowMs, replCount := 0 }

/-- The id string `fmt.Sprintf("%v-%v", strconv.FormatInt(ts, 10), cnt)`. -/
def idString (tsMs : Int) (cnt : Nat) : String :=
  String.mk (intDecimal tsMs ++ '-' :: natDecimal cnt)

/-- `memoryReplicator.getReplId`: advance the (ts, count) state and
render the id. -/
def getReplId (nowMs : Int) (st : MemState) : String × MemState :=
  let st' := stepRepl nowMs st
  (idString st'.replTSms st'.replCount, st')

/-- `memoryReplicator.SendUpdates` (memory.go:78-97).  `nows` supplies
the `time.Now().UnixMilli()` reading of each `getReplId` call.  Returns
(responses, the updates as forwarded to `replChan`, final state); for a
`Ticket` command the element's `Key` is overwritten with the new
replication id before it is forwarded — and since the outgoing queue
passed a pointer to the caller's `UpdateRequest.Update`, this mutation
is the caller's own `StateUpdate`. -/
def memorySendUpdates :
    List Int → MemState → List StateUpdate →
    List StateResponse × List StateUpdate × MemState
  | _, st, [] => ([], [], st)
  | [], st, _ :: _ => ([], [], st)
  | nowMs :: nows, st, u :: us =>
    let r := getReplId nowMs st
    let u' := if u.Cmd = Ticket then { u with Key := r.1 } else u
    let rest := memorySendUpdates nows r.2 us
    (⟨r.1, none⟩ :: rest.1, u' :: rest.2.1, rest.2.2)

/-- The (timestamp, sequence) pairs emitted by a run of `getReplId`
calls, with the final state. -/
def emitAll : List Int → MemState → List (Int × Nat) × MemState
  | [], st => ([], st)
  | nowMs :: nows, st =>
    let st' := stepRepl nowMs st
    let rest := emitAll nows st'
    ((st'.replTSms, st'.replCount) :: rest.1, rest.2)

/-- The timestamp-then-sequence order on replication ids. -/
def replIdLt (a b : Int × Nat) : Prop :=
  a.1 < b.1 ∨ (a.1 = b.1 ∧ a.2 < b.2)

instance : DecidablePred fun p : (Int × Nat) × Int × Nat => replIdLt p.1 p.2 :=
  fun _ => by unfold replIdLt; infer_instance

instance (a b : Int × Nat) : Decidable (replIdLt a b) := by
  unfold replIdLt; infer_instance

/-- The validator pattern of both replicators:
regexp `^\d{13}-\d+$` (13 digits, a dash, at least one digit). -/
def matchesReplId (s : String) : Bool :=
  let cs := s.toList
  decide ((cs.take 13).length = 13) &&
    (cs.take 13).all (fun c => c.isDigit) &&
    (match cs.drop 13 with
     | '-' :: rest => decide (rest ≠ []) && rest.all (fun c => c.isDigit)
     | _ => false)

/-! ### The Redis-backed replicator (`redisReplicator.SendUpdates`, part_008) -/

/-- A reply slot of the pipelined `rConn.Do("")` result. -/
inductive RVal
  | str (s : String)
  | int (n : Int)
  deriving DecidableEq

/-- The per-element validation of the XADD loop (part_008:304-350):
the error assigned to `out[i].Err`, or `none` when the element is valid
and an XADD command is buffered for it. -/
def validateUpdate (u : StateUpdate) : Option RedisError :=
  if u.Cmd = Ticket then
    if u.Value = .empty then some .NoTicketDataErr else none
  else if u.Cmd = Activate then
    if u.Key = "" then some .NoTicketKeyErr else none
  else if u.Cmd = Deactivate then
    if u.Key = "" then some .NoTicketKeyErr else none
  else if u.Cmd = Assign then
    if u.Key = "" then some .NoTicketKeyErr
    else if u.Value = .empty then some .NoAssignmentErr
    else none
  else some .InvalidInputErr

/-- The result-assembly loop (part_008:416-437): `index` runs from 0 to
`len(r)-2`, pairing reply `r[index]` with `updates[index]` and
`out[index]`.  `fuel` is the remaining number of iterations
(`len(r)-1 - index`); responses beyond the loop bound keep their
phase-1 value.  `errIn` models the lingering non-nil `err` fed into
`redis.String` (it is non-nil when the trailing XTRIM reply failed the
`redis.Int64` conversion). -/
def assembleLoop (errIn : Bool) :
    Nat → List StateUpdate → List StateResponse → List RVal →
    List StateResponse
  | 0, _, outs, _ => outs
  | _ + 1, _, [], _ => []
  | _ + 1, [], outs, _ => outs
  | _ + 1, _ :: _, outs, [] => outs
  | fuel + 1, u :: us, o :: os, v :: vs =>
    (if o.Err.isSome then
      -- parse error from phase 1: return the error and the offending key
      { o with Result := u.Key }
    else
      match errIn, v with
      | false, .str t => { o with Result := t }
      | _, _ => { Result := u.Key, Err := some .ConversionErr }) ::
      assembleLoop errIn fuel us os vs

/-- `redisReplicator.SendUpdates` (part_008:283-440).  The Redis side is
an input: `r = none` models a `nil` reply from the pipelined `Do("")`
(transport failure), `r = some rl` the reply array, whose last element
is the XTRIM entry count. -/
def redisSendUpdates (updates : List StateUpdate) (r : Option (List RVal)) :
    List StateResponse :=
  -- phase 1: out[i] = {Result: "", Err: nil}, then per-element validation
  let out0 := updates.map (fun u => StateResponse.mk "" (validateUpdate u))
  match r with
  | none => out0
  | some rl =>
    -- `expiredCount, err := redis.Int64(r[len(r)-1], err)`
    let errIn : Bool :=
      match rl.getLast? with
      | some (.int _) => false
      | _ => true
    assembleLoop errIn (rl.length - 1) updates out0 rl

/-! ### Derived predicates used to characterise the sweeps -/

/-- The deletion condition of the InactiveSet pass for one identity:
the identity parses and its age exceeds the ticket TTL. -/
def inactExpired (cfg : RedisConfig) (nowMs : Int) (id : String) : Bool :=
  (goParseInt (splitHead id)).2 &&
    decide (nowMs - (goParseInt (splitHead id)).1 > cfg.OmCacheTicketTtlMs)

/-- The deletion condition of the Assignments pass for one identity:
age (computed from the error-insensitive `ParseInt` value) exceeds
ticket TTL plus the additional assignment TTL. -/
def assignExpired (cfg : RedisConfig) (nowMs : Int) (id : String) : Bool :=
  decide (nowMs - (goParseInt (splitHead id)).1 >
    cfg.OmCacheTicketTtlMs + cfg.OmCacheAssignmentAdditionalTtlMs)

/-- Whether some entry of `l` stored under key `k` has an expired
user-specified expiration instant. -/
def ticketExpiredIn (nowMs : Int) (l : List (String × TicketPb)) (k : String) : Bool :=
  l.any (fun p => p.1 == k && decide (nowMs > p.2.expirationTimeMs))

/-- Erase from `m` every key of `ids` satisfying `E` (the shape shared
by the first and third sweep passes). -/
def eraseFold (E : String → Bool) (ids : List String)
    (m : List (String × α)) : List (String × α) :=
  ids.foldl (fun acc id => if E id then mapErase acc id else acc) m

/-!
## Theorems
-/

/-- Erasing an absent key is the identity. -/
theorem mapErase_eq_self_of_lookup_none (m : List (String × α)) (k : String)
    (h : mapLookup m k = none) : mapErase m k = m := by
  induction m with
  | nil => rfl
  | cons p rest ih =>
    by_cases hk : p.1 = k
    · simp [mapLookup, hk] at h
    · simp only [mapLookup, if_neg hk] at h
      simp [mapErase, hk, List.filter] at ih ⊢
      exact ih h

/-- A key-only filter that keeps key `k` preserves its lookup. -/
theorem mapLookup_filter_key (g : String → Bool) (m : List (String × α))
    (k : String) (hg : g k = true) :
    mapLookup (m.filter (fun p => g p.1)) k = mapLookup m k := by
  induction m with
  | nil => rfl
  | cons p rest ih =>
    by_cases hk : p.1 = k
    · subst hk
      simp [List.filter, hg, mapLookup]
    · cases hgp : g p.1 <;>
        simp [List.filter, hgp, mapLookup, hk, ih]

/-- A key-only filter that drops key `k` empties its lookup. -/
theorem mapLookup_filter_key_none (g : String → Bool) (m : List (String × α))
    (k : String) (hg : g k = false) :
    mapLookup (m.filter (fun p => g p.1)) k = none := by
  induction m with
  | nil => rfl
  | cons p rest ih =>
    by_cases hk : p.1 = k
    · subst hk
      simp [List.filter, hg, ih]
    · cases hgp : g p.1 <;>
        simp [List.filter, hgp, mapLookup, hk, ih]

/-- A lookup of `none` means the key is stored nowhere in the map. -/
theorem mapLookup_none_iff (m : List (String × α)) (k : String) :
    mapLookup m k = none ↔ ∀ p ∈ m, p.1 ≠ k := by
  induction m with
  | nil => simp [mapLookup]
  | cons p rest ih =>
    by_cases hk : p.1 = k <;> simp [mapLookup, hk, ih]

/-- `eraseFold` is a filter: a pair survives unless its key is one of
the erased ids and satisfies `E`. -/
theorem eraseFold_filter (E : String → Bool) (ids : List String)
    (m : List (String × α)) :
    eraseFold E ids m =
      m.filter (fun p => !(decide (p.1 ∈ ids) && E p.1)) := by
  induction ids generalizing m with
  | nil => simp [eraseFold]
  | cons a t ih =>
    by_cases hEa : E a = true
    · have h1 : eraseFold E (a :: t) m = eraseFold E t (mapErase m a) := by
        simp [eraseFold, hEa]
      rw [h1, ih, mapErase, List.filter_filter]
      apply List.filter_congr
      intro p _
      by_cases hpa : p.1 = a <;> simp [hpa, hEa]
    · have hEa' : E a = false := by simpa using hEa
      have h1 : eraseFold E (a :: t) m = eraseFold E t m := by
        simp [eraseFold, hEa']
      rw [h1, ih]
      apply List.filter_congr
      intro p _
      by_cases hpa : p.1 = a <;> simp [hpa, hEa']

/-- The InactiveSet pass acts as `eraseFold` with condition
`inactExpired` on the Tickets and InactiveSet maps and leaves
Assignments alone. -/
theorem sweepInactive_go (cfg : RedisConfig) (nowMs : Int)
    (ids : List String) (s : CacheState) :
    ids.foldl
      (fun s id =>
        let parsed := goParseInt (splitHead id)
        if !parsed.2 then s
        else if nowMs - parsed.1 > cfg.OmCacheTicketTtlMs then
          { s with Tickets := mapErase s.Tickets id,
                   InactiveSet := mapErase s.InactiveSet id }
        else s)
      s =
      ⟨eraseFold (inactExpired cfg nowMs) ids s.Tickets,
       eraseFold (inactExpired cfg nowMs) ids s.InactiveSet,
       s.Assignments⟩ := by
  induction ids generalizing s with
  | nil => simp [eraseFold]
  | cons a t ih =>
    rw [List.foldl_cons]
    rw [ih]
    have haux : ∀ (β : Type) (m : List (String × β)),
        eraseFold (inactExpired cfg nowMs) (a :: t) m =
          eraseFold (inactExpired cfg nowMs) t
            (if inactExpired cfg nowMs a then mapErase m a else m) := by
      intro β m
      by_cases hE : inactExpired cfg nowMs a = true <;>
        simp [eraseFold, hE]
    rw [haux, haux]
    by_cases hok : (goParseInt (splitHead a)).2 = true
    · by_cases hexp : nowMs - (goParseInt (splitHead a)).1 > cfg.OmCacheTicketTtlMs
      · have hE : inactExpired cfg nowMs a = true := by
          simp [inactExpired, hok, hexp]
        simp only [hok, hexp, hE, Bool.not_true, if_true, if_false,
          Bool.false_eq_true, reduceIte]
      · have hE : inactExpired cfg nowMs a = false := by
          simp [inactExpired, hexp]
        simp only [hok, hexp, hE, Bool.not_true, Bool.false_eq_true, reduceIte]
    · have hok' : (goParseInt (splitHead a)).2 = false := by simpa using hok
      have hE : inactExpired cfg nowMs a = false := by
        simp [inactExpired, hok']
      simp only [hok', hE, Bool.not_false, Bool.false_eq_true, reduceIte, if_true]

/-- Filter characterisation of the InactiveSet pass. -/
theorem sweepInactive_eq (cfg : RedisConfig) (nowMs : Int) (s : CacheState) :
    sweepInactive cfg nowMs s =
      ⟨s.Tickets.filter
         (fun p => !(decide (p.1 ∈ s.InactiveSet.map Prod.fst) &&
           inactExpired cfg nowMs p.1)),
       s.InactiveSet.filter
         (fun p => !(decide (p.1 ∈ s.InactiveSet.map Prod.fst) &&
           inactExpired cfg nowMs p.1)),
       s.Assignments⟩ := by
  rw [sweepInactive, sweepInactive_go, eraseFold_filter, eraseFold_filter]

/-- The Assignments pass acts as `eraseFold` with condition
`assignExpired` on Assignments and leaves the other maps alone. -/
theorem sweepAssignments_go (cfg : RedisConfig) (nowMs : Int)
    (ids : List String) (s : CacheState) :
    ids.foldl
      (fun s id =>
        let parsed := goParseInt (splitHead id)
        if nowMs - parsed.1 >
            cfg.OmCacheTicketTtlMs + cfg.OmCacheAssignmentAdditionalTtlMs then
          { s with Assignments := mapErase s.Assignments id }
        else s)
      s =
      ⟨s.Tickets, s.InactiveSet,
       eraseFold (assignExpired cfg nowMs) ids s.Assignments⟩ := by
  induction ids generalizing s with
  | nil => simp [eraseFold]
  | cons a t ih =>
    rw [List.foldl_cons, ih]
    have haux : ∀ m : List (String × AssignmentPb),
        eraseFold (assignExpired cfg nowMs) (a :: t) m =
          eraseFold (assignExpired cfg nowMs) t
            (if assignExpired cfg nowMs a then mapErase m a else m) := by
      intro m
      by_cases hE : assignExpired cfg nowMs a = true <;>
        simp [eraseFold, hE]
    rw [haux]
    by_cases hexp : nowMs - (goParseInt (splitHead a)).1 >
        cfg.OmCacheTicketTtlMs + cfg.OmCacheAssignmentAdditionalTtlMs
    · have hE : assignExpired cfg nowMs a = true := by
        simp [assignExpired, hexp]
      simp only [hexp, hE, reduceIte, if_true]
    · have hE : assignExpired cfg nowMs a = false := by
        simp [assignExpired, hexp]
      simp only [hexp, hE, reduceIte, Bool.false_eq_true, if_false]

/-- Filter characterisation of the Assignments pass. -/
theorem sweepAssignments_eq (cfg : RedisConfig) (nowMs : Int) (s : CacheState) :
    sweepAssignments cfg nowMs s =
      ⟨s.Tickets, s.InactiveSet,
       s.Assignments.filter
         (fun p => !(decide (p.1 ∈ s.Assignments.map Prod.fst) &&
           assignExpired cfg nowMs p.1))⟩ := by
  rw [sweepAssignments, sweepAssignments_go, eraseFold_filter]

/-- Filter characterisation of the Tickets pass: an entry survives
unless some (equivalently, its own) entry stored under the same key in
the pre-pass map has an expired expiration instant. -/
theorem sweepTickets_go (nowMs : Int)
    (l : List (String × TicketPb)) (s : CacheState) :
    l.foldl
      (fun s p =>
        if nowMs > p.2.expirationTimeMs then
          { s with Tickets := mapErase s.Tickets p.1 }
        else s)
      s =
      { s with Tickets :=
          s.Tickets.filter (fun q => !(ticketExpiredIn nowMs l q.1)) } := by
  induction l generalizing s with
  | nil => simp [ticketExpiredIn]
  | cons p t ih =>
    rw [List.foldl_cons]
    by_cases hp : nowMs > p.2.expirationTimeMs
    · rw [if_pos hp, ih]
      show (⟨(mapErase s.Tickets p.1).filter _, s.InactiveSet, s.Assignments⟩ :
        CacheState) = _
      rw [mapErase, List.filter_filter]
      congr 1
      apply List.filter_congr
      intro q _
      by_cases hq : q.1 = p.1
      · simp [ticketExpiredIn, hq, hp]
      · have hq' : ¬ p.1 = q.1 := fun h => hq h.symm
        simp [ticketExpiredIn, hq, hq', hp]
    · rw [if_neg hp, ih]
      congr 1
      apply List.filter_congr
      intro q _
      by_cases hq : q.1 = p.1
      · simp [ticketExpiredIn, hq, hp]
      · have hq' : ¬ p.1 = q.1 := fun h => hq h.symm
        simp [ticketExpiredIn, hq, hq', hp]

/-- Filter characterisation of the Tickets pass. -/
theorem sweepTickets_eq (nowMs : Int) (s : CacheState) :
    sweepTickets nowMs s =
      { s with Tickets :=
          s.Tickets.filter (fun q => !(ticketExpiredIn nowMs s.Tickets q.1)) } := by
  rw [sweepTickets, sweepTickets_go]

/-- The InactiveSet pass is the identity when no inactive entry is
expired. -/
theorem sweepInactive_id_of (cfg : RedisConfig) (nowMs : Int) (s : CacheState)
    (h : ∀ p ∈ s.InactiveSet, inactExpired cfg nowMs p.1 = false) :
    sweepInactive cfg nowMs s = s := by
  rw [sweepInactive_eq]
  have hkey : ∀ k, k ∈ s.InactiveSet.map Prod.fst →
      inactExpired cfg nowMs k = false := by
    intro k hk
    obtain ⟨q, hq, hq1⟩ := List.mem_map.mp hk
    exact hq1 ▸ h q hq
  have hT : s.Tickets.filter
      (fun p => !(decide (p.1 ∈ s.InactiveSet.map Prod.fst) &&
        inactExpired cfg nowMs p.1)) = s.Tickets := by
    apply List.filter_eq_self.mpr
    intro p _
    by_cases hmem : p.1 ∈ s.InactiveSet.map Prod.fst
    · simp [hmem, hkey p.1 hmem]
    · simp [hmem]
  have hI : s.InactiveSet.filter
      (fun p => !(decide (p.1 ∈ s.InactiveSet.map Prod.fst) &&
        inactExpired cfg nowMs p.1)) = s.InactiveSet := by
    apply List.filter_eq_self.mpr
    intro p hp
    simp [h p hp]
  rw [hT, hI]

/-- The Tickets pass is the identity when no remaining ticket's own
expiration instant has passed. -/
theorem sweepTickets_id_of (nowMs : Int) (s : CacheState)
    (h : ∀ p ∈ s.Tickets, ¬ nowMs > p.2.expirationTimeMs) :
    sweepTickets nowMs s = s := by
  rw [sweepTickets_eq]
  have hT : s.Tickets.filter
      (fun q => !(ticketExpiredIn nowMs s.Tickets q.1)) = s.Tickets := by
    apply List.filter_eq_self.mpr
    intro q _
    have : ticketExpiredIn nowMs s.Tickets q.1 = false := by
      rw [ticketExpiredIn]
      apply List.any_eq_false.mpr
      intro p hp
      simp [h p hp]
    simp [this]
  rw [hT]

/-- The Assignments pass is the identity when no assignment entry is
expired. -/
theorem sweepAssignments_id_of (cfg : RedisConfig) (nowMs : Int) (s : CacheState)
    (h : ∀ p ∈ s.Assignments, assignExpired cfg nowMs p.1 = false) :
    sweepAssignments cfg nowMs s = s := by
  rw [sweepAssignments_eq]
  have hA : s.Assignments.filter
      (fun p => !(decide (p.1 ∈ s.Assignments.map Prod.fst) &&
        assignExpired cfg nowMs p.1)) = s.Assignments := by
    apply List.filter_eq_self.mpr
    intro p hp
    simp [h p hp]
  rw [hA]

/-- After a full sweep, every surviving inactive entry is unexpired. -/
theorem expirationSweep_inactive_ok (cfg : RedisConfig) (nowMs : Int)
    (st : CacheState) :
    ∀ p ∈ (expirationSweep cfg nowMs st).InactiveSet,
      inactExpired cfg nowMs p.1 = false := by
  intro p hp
  rw [expirationSweep, sweepAssignments_eq] at hp
  rw [sweepTickets_eq] at hp
  rw [sweepInactive_eq] at hp
  simp only [List.mem_filter] at hp
  obtain ⟨hpmem, hpf⟩ := hp
  have hkey : p.1 ∈ st.InactiveSet.map Prod.fst :=
    List.mem_map.mpr ⟨p, hpmem, rfl⟩
  simpa [hkey] using hpf

/-- After a full sweep, every surviving ticket's own expiration instant
is still in the future (or now). -/
theorem expirationSweep_tickets_ok (cfg : RedisConfig) (nowMs : Int)
    (st : CacheState) :
    ∀ p ∈ (expirationSweep cfg nowMs st).Tickets,
      ¬ nowMs > p.2.expirationTimeMs := by
  intro p hp
  rw [expirationSweep, sweepAssignments_eq] at hp
  rw [sweepTickets_eq] at hp
  simp only [List.mem_filter] at hp
  obtain ⟨hpmem, hpf⟩ := hp
  have hn : ticketExpiredIn nowMs (sweepInactive cfg nowMs st).Tickets p.1
      = false := by simpa using hpf
  rw [ticketExpiredIn, List.any_eq_false] at hn
  have := hn p hpmem
  simpa using this

/-- After a full sweep, every surviving assignment entry is unexpired. -/
theorem expirationSweep_assignments_ok (cfg : RedisConfig) (nowMs : Int)
    (st : CacheState) :
    ∀ p ∈ (expirationSweep cfg nowMs st).Assignments,
      assignExpired cfg nowMs p.1 = false := by
  intro p hp
  rw [expirationSweep, sweepAssignments_eq] at hp
  simp only [List.mem_filter] at hp
  obtain ⟨hpmem, hpf⟩ := hp
  have hkey : p.1 ∈
      (sweepTickets nowMs (sweepInactive cfg nowMs st)).Assignments.map Prod.fst :=
    List.mem_map.mpr ⟨p, hpmem, rfl⟩
  simpa [hkey] using hpf

/-- Folding `applyAll` over a list of cycles applies their
concatenation. -/
theorem applyAll_foldl_join (cycles : List (List StateUpdate)) (s : CacheState) :
    cycles.foldl applyAll s = applyAll s cycles.flatten := by
  induction cycles generalizing s with
  | nil => simp [applyAll]
  | cons c cs ih =>
    rw [List.foldl_cons, ih, List.flatten_cons]
    simp [applyAll, List.foldl_append]

/-- C1: for any update sequence committed to the log in order, the
cache state after the incoming queue has polled them (in any batch
split) and the apply task has drained them (in any cycle split), with
no expiration deletions intervening, equals applying the sequence one
at a time, in order, to the empty cache. -/
theorem c1_replay_refinement (us : List StateUpdate)
    (pollBatches drainCycles : List (List StateUpdate))
    (hpoll : pollBatches.flatten = us)
    (hdrain : drainCycles.flatten = pollBatches.flatten) :
    drainCycles.foldl applyAll emptyCache = applyAll emptyCache us := by
  rw [applyAll_foldl_join, hdrain, hpoll]

/-- Witness for `c1_replay_refinement` at a concrete three-update log
split one way by polling and another way by draining. -/
theorem c1_replay_refinement_witness :
    ([[⟨Ticket, "1-0", .ticketBytes ⟨"", 99⟩⟩],
      [⟨Deactivate, "1-0", .empty⟩, ⟨Activate, "1-0", .empty⟩]] :
        List (List StateUpdate)).flatten =
      [⟨Ticket, "1-0", .ticketBytes ⟨"", 99⟩⟩,
       ⟨Deactivate, "1-0", .empty⟩, ⟨Activate, "1-0", .empty⟩] ∧
    ([[⟨Ticket, "1-0", .ticketBytes ⟨"", 99⟩⟩, ⟨Deactivate, "1-0", .empty⟩],
      [⟨Activate, "1-0", .empty⟩]] : List (List StateUpdate)).flatten =
      ([[⟨Ticket, "1-0", .ticketBytes ⟨"", 99⟩⟩],
        [⟨Deactivate, "1-0", .empty⟩, ⟨Activate, "1-0", .empty⟩]] :
          List (List StateUpdate)).flatten ∧
    ([[⟨Ticket, "1-0", .ticketBytes ⟨"", 99⟩⟩, ⟨Deactivate, "1-0", .empty⟩],
      [⟨Activate, "1-0", .empty⟩]] : List (List StateUpdate)).foldl
        applyAll emptyCache =
      applyAll emptyCache
        [⟨Ticket, "1-0", .ticketBytes ⟨"", 99⟩⟩,
         ⟨Deactivate, "1-0", .empty⟩, ⟨Activate, "1-0", .empty⟩] :=
  ⟨by decide, by decide,
   c1_replay_refinement
     [⟨Ticket, "1-0", .ticketBytes ⟨"", 99⟩⟩,
      ⟨Deactivate, "1-0", .empty⟩, ⟨Activate, "1-0", .empty⟩]
     [[⟨Ticket, "1-0", .ticketBytes ⟨"", 99⟩⟩],
      [⟨Deactivate, "1-0", .empty⟩, ⟨Activate, "1-0", .empty⟩]]
     [[⟨Ticket, "1-0", .ticketBytes ⟨"", 99⟩⟩, ⟨Deactivate, "1-0", .empty⟩],
      [⟨Activate, "1-0", .empty⟩]]
     (by decide) (by decide)⟩

/-- C2: evaluation of `redisSendUpdates` at a batch whose first element
is malformed (Ticket without payload) and whose second element is
well-formed and was committed by Redis (one XADD reply plus the XTRIM
count).  The result list still has length two, but the well-formed
element's response is the untouched placeholder `{Result := "", Err :=
none}` instead of its assigned replication id `"1700000000000-0"`:
the reply-assembly loop pairs reply `r[index]` with `updates[index]`
although malformed updates produced no reply, so positional
correspondence is lost. -/
theorem c2_redis_misalignment :
    (redisSendUpdates
      [⟨Ticket, "origkey", .empty⟩, ⟨Activate, "k1", .empty⟩]
      (some [.str "1700000000000-0", .int 2])).length = 2 ∧
    redisSendUpdates
      [⟨Ticket, "origkey", .empty⟩, ⟨Activate, "k1", .empty⟩]
      (some [.str "1700000000000-0", .int 2]) =
      [⟨"origkey", some .NoTicketDataErr⟩, ⟨"", none⟩] := by decide

/-- C3 counterexample: a CreateTicket update whose payload fails to
deserialize is not skipped — the prior entry under the key is
overwritten by the zero-valued ticket (with its Id set to the key). -/
theorem c3_counterexample :
    mapLookup (applyStateUpdate ⟨[("k", ⟨"old", 5⟩)], [], []⟩
      ⟨Ticket, "k", Payload.garbage 0⟩).Tickets "k" ≠ some ⟨"old", 5⟩ ∧
    mapLookup (applyStateUpdate ⟨[("k", ⟨"old", 5⟩)], [], []⟩
      ⟨Ticket, "k", Payload.garbage 0⟩).Tickets "k" = some ⟨"k", 0⟩ ∧
    mapLookup (applyStateUpdate ⟨[("k", ⟨"old", 5⟩)], [], []⟩
      ⟨Ticket, "k", Payload.garbage 0⟩).InactiveSet "k" = some true := by
  decide

/-- C3 amended: a deserialization failure during apply is logged and
the drain continues with the remaining updates, but the failing update
is not skipped: for CreateTicket the zero-valued ticket with Id = key
is stored (and the key inserted into InactiveSet), for Assign the
zero-valued assignment is stored, overwriting any prior entry for that
key. -/
theorem c3_amended (s : CacheState) (k : String) (v : Payload)
    (ht : unmarshalTicket v = none) (ha : unmarshalAssignment v = none) :
    applyStateUpdate s ⟨Ticket, k, v⟩ =
      { s with InactiveSet := mapStore s.InactiveSet k true,
               Tickets := mapStore s.Tickets k ⟨k, 0⟩ } ∧
    applyStateUpdate s ⟨Assign, k, v⟩ =
      { s with Assignments := mapStore s.Assignments k {} } ∧
    (∀ rest, applyAll s (⟨Ticket, k, v⟩ :: rest) =
      applyAll (applyStateUpdate s ⟨Ticket, k, v⟩) rest) := by
  refine ⟨?_, ?_, fun rest => rfl⟩
  · simp [applyStateUpdate, Ticket, ht]
  · simp [applyStateUpdate, Ticket, Activate, Deactivate, Assign, ha]

/-- Witness for `c3_amended` on a garbage payload. -/
theorem c3_amended_witness :
    unmarshalTicket (Payload.garbage 7) = none ∧
    unmarshalAssignment (Payload.garbage 7) = none ∧
    (applyStateUpdate ⟨[("k", ⟨"old", 5⟩)], [], []⟩ ⟨Ticket, "k", Payload.garbage 7⟩ =
      { CacheState.mk [("k", ⟨"old", 5⟩)] [] [] with
          InactiveSet := mapStore [] "k" true,
          Tickets := mapStore [("k", ⟨"old", 5⟩)] "k" ⟨"k", 0⟩ } ∧
    applyStateUpdate ⟨[("k", ⟨"old", 5⟩)], [], []⟩ ⟨Assign, "k", Payload.garbage 7⟩ =
      { CacheState.mk [("k", ⟨"old", 5⟩)] [] [] with
          Assignments := mapStore [] "k" {} } ∧
    (∀ rest, applyAll ⟨[("k", ⟨"old", 5⟩)], [], []⟩
        (⟨Ticket, "k", Payload.garbage 7⟩ :: rest) =
      applyAll (applyStateUpdate ⟨[("k", ⟨"old", 5⟩)], [], []⟩
        ⟨Ticket, "k", Payload.garbage 7⟩) rest)) :=
  ⟨by decide, by decide,
   c3_amended ⟨[("k", ⟨"old", 5⟩)], [], []⟩ "k" (Payload.garbage 7)
     (by decide) (by decide)⟩

/-- C4: evaluation of `redisSendUpdates` at a batch whose first element
is malformed (Assign without assignment data) and whose second element
is well-formed (Deactivate).  The malformed element does receive its
specific error (`NoAssignmentErr`), and the sibling was sent to Redis
(whose reply `"1700000000077-0"` is present), but the sibling's
response is the untouched placeholder instead of that reply: siblings
are affected by a malformed element. -/
theorem c4_redis_sibling_lost :
    redisSendUpdates
      [⟨Assign, "t1", .empty⟩, ⟨Deactivate, "k2", .empty⟩]
      (some [.str "1700000000077-0", .int 0]) =
      [⟨"t1", some .NoAssignmentErr⟩, ⟨"", none⟩] := by decide

/-- C5 counterexample: an Assignments entry whose identity's leading
component fails to parse is not left untouched by the sweep — the
error-insensitive `ParseInt` value 0 makes it look infinitely old and
it is deleted. -/
theorem c5_counterexample :
    (goParseInt (splitHead "abc-1")).2 = false ∧
    mapLookup ([("abc-1", (⟨"c"⟩ : AssignmentPb))]) "abc-1" = some ⟨"c"⟩ ∧
    mapLookup (expirationSweep ⟨10, 5⟩ 1000
      ⟨[], [], [("abc-1", ⟨"c"⟩)]⟩).Assignments "abc-1" = none := by
  decide

/-- C5 amended: during the InactiveSet pass an entry whose identity
fails to parse is skipped (its inactive entry and any ticket stored
under the identity survive the pass untouched); during the Assignments
pass the parse error is only logged and the entry is aged with the
error value of `ParseInt` (0 on a syntax error), so it is deleted
exactly when `now - 0` exceeds ticket TTL plus assignment TTL, and
kept otherwise.  The sweep continues with the remaining entries in
both cases. -/
theorem c5_amended (cfg : RedisConfig) (nowMs : Int) (s : CacheState)
    (id : String) (h : (goParseInt (splitHead id)).2 = false) :
    mapLookup (sweepInactive cfg nowMs s).InactiveSet id =
      mapLookup s.InactiveSet id ∧
    mapLookup (sweepInactive cfg nowMs s).Tickets id =
      mapLookup s.Tickets id ∧
    (assignExpired cfg nowMs id = true →
      mapLookup (sweepAssignments cfg nowMs s).Assignments id = none) ∧
    (assignExpired cfg nowMs id = false →
      mapLookup (sweepAssignments cfg nowMs s).Assignments id =
        mapLookup s.Assignments id) := by
  have hE : inactExpired cfg nowMs id = false := by
    simp [inactExpired, h]
  refine ⟨?_, ?_, ?_, ?_⟩
  · rw [sweepInactive_eq]
    exact mapLookup_filter_key
      (fun k => !(decide (k ∈ s.InactiveSet.map Prod.fst) &&
        inactExpired cfg nowMs k))
      s.InactiveSet id (by simp [hE])
  · rw [sweepInactive_eq]
    exact mapLookup_filter_key
      (fun k => !(decide (k ∈ s.InactiveSet.map Prod.fst) &&
        inactExpired cfg nowMs k))
      s.Tickets id (by simp [hE])
  · intro hA
    rw [sweepAssignments_eq]
    by_cases hmem : id ∈ s.Assignments.map Prod.fst
    · exact mapLookup_filter_key_none
        (fun k => !(decide (k ∈ s.Assignments.map Prod.fst) &&
          assignExpired cfg nowMs k))
        s.Assignments id (by simp [hmem, hA])
    · have hnone : mapLookup s.Assignments id = none := by
        rw [mapLookup_none_iff]
        intro p hp hcontra
        exact hmem (List.mem_map.mpr ⟨p, hp, hcontra⟩)
      rw [mapLookup_filter_key
        (fun k => !(decide (k ∈ s.Assignments.map Prod.fst) &&
          assignExpired cfg nowMs k))
        s.Assignments id (by simp [hmem]), hnone]
  · intro hA
    rw [sweepAssignments_eq]
    exact mapLookup_filter_key
      (fun k => !(decide (k ∈ s.Assignments.map Prod.fst) &&
        assignExpired cfg nowMs k))
      s.Assignments id (by simp [hA])

/-- Witness for `c5_amended` at a concrete state containing an
unparsable identity in all three maps. -/
theorem c5_amended_witness :
    (goParseInt (splitHead "xy-1")).2 = false ∧
    (mapLookup (sweepInactive ⟨10, 5⟩ 1000
        ⟨[("xy-1", ⟨"xy-1", 2000⟩)], [("xy-1", true)], [("xy-1", ⟨"c"⟩)]⟩).InactiveSet
        "xy-1" =
      mapLookup [("xy-1", true)] "xy-1" ∧
    mapLookup (sweepInactive ⟨10, 5⟩ 1000
        ⟨[("xy-1", ⟨"xy-1", 2000⟩)], [("xy-1", true)], [("xy-1", ⟨"c"⟩)]⟩).Tickets
        "xy-1" =
      mapLookup [("xy-1", (⟨"xy-1", 2000⟩ : TicketPb))] "xy-1" ∧
    (assignExpired ⟨10, 5⟩ 1000 "xy-1" = true →
      mapLookup (sweepAssignments ⟨10, 5⟩ 1000
          ⟨[("xy-1", ⟨"xy-1", 2000⟩)], [("xy-1", true)], [("xy-1", ⟨"c"⟩)]⟩).Assignments
          "xy-1" = none) ∧
    (assignExpired ⟨10, 5⟩ 1000 "xy-1" = false →
      mapLookup (sweepAssignments ⟨10, 5⟩ 1000
          ⟨[("xy-1", ⟨"xy-1", 2000⟩)], [("xy-1", true)], [("xy-1", ⟨"c"⟩)]⟩).Assignments
          "xy-1" =
        mapLookup [("xy-1", (⟨"c"⟩ : AssignmentPb))] "xy-1")) :=
  ⟨by decide,
   c5_amended ⟨10, 5⟩ 1000
     ⟨[("xy-1", ⟨"xy-1", 2000⟩)], [("xy-1", true)], [("xy-1", ⟨"c"⟩)]⟩
     "xy-1" (by decide)⟩

/-- C6: applying a CreateTicket update with a deserializable payload
stores the deserialized ticket, with its Id field set to the update's
key, under that key in Tickets, and inserts the key into InactiveSet. -/
theorem c6_create_ticket_inactive (s : CacheState) (k : String) (v : Payload)
    (t : TicketPb) (h : unmarshalTicket v = some t) :
    mapLookup (applyStateUpdate s ⟨Ticket, k, v⟩).Tickets k =
      some { t with id := k } ∧
    mapLookup (applyStateUpdate s ⟨Ticket, k, v⟩).InactiveSet k = some true := by
  simp [applyStateUpdate, Ticket, h, mapStore, mapLookup]

/-- Witness for `c6_create_ticket_inactive` at a concrete payload. -/
theorem c6_create_ticket_inactive_witness :
    unmarshalTicket (Payload.ticketBytes ⟨"ignored", 77⟩) =
      some ⟨"ignored", 77⟩ ∧
    (mapLookup (applyStateUpdate emptyCache
        ⟨Ticket, "9-0", Payload.ticketBytes ⟨"ignored", 77⟩⟩).Tickets "9-0" =
      some { TicketPb.mk "ignored" 77 with id := "9-0" } ∧
    mapLookup (applyStateUpdate emptyCache
        ⟨Ticket, "9-0", Payload.ticketBytes ⟨"ignored", 77⟩⟩).InactiveSet "9-0" =
      some true) :=
  ⟨by decide,
   c6_create_ticket_inactive emptyCache "9-0"
     (Payload.ticketBytes ⟨"ignored", 77⟩) ⟨"ignored", 77⟩ (by decide)⟩

/-- C7: the full three-pass expiration sweep is idempotent at a fixed
observation time — running it a second time with no intervening
updates deletes nothing from Tickets, InactiveSet or Assignments. -/
theorem c7_expiration_sweep_idempotent (cfg : RedisConfig) (nowMs : Int)
    (st : CacheState) :
    expirationSweep cfg nowMs (expirationSweep cfg nowMs st) =
      expirationSweep cfg nowMs st := by
  show sweepAssignments cfg nowMs (sweepTickets nowMs (sweepInactive cfg nowMs
    (expirationSweep cfg nowMs st))) = expirationSweep cfg nowMs st
  rw [sweepInactive_id_of cfg nowMs _ (expirationSweep_inactive_ok cfg nowMs st),
      sweepTickets_id_of nowMs _ (expirationSweep_tickets_ok cfg nowMs st),
      sweepAssignments_id_of cfg nowMs _
        (expirationSweep_assignments_ok cfg nowMs st)]

/-- C8: applying an Activate update removes the id from InactiveSet
and leaves Tickets and Assignments untouched; for an id absent from
InactiveSet the whole cache state is unchanged and no entry is
created. -/
theorem c8_activate_frame (s : CacheState) (id : String) (v : Payload) :
    (applyStateUpdate s ⟨Activate, id, v⟩).Tickets = s.Tickets ∧
    (applyStateUpdate s ⟨Activate, id, v⟩).Assignments = s.Assignments ∧
    (applyStateUpdate s ⟨Activate, id, v⟩).InactiveSet =
      mapErase s.InactiveSet id ∧
    (mapLookup s.InactiveSet id = none →
      applyStateUpdate s ⟨Activate, id, v⟩ = s) := by
  have happ : applyStateUpdate s ⟨Activate, id, v⟩ =
      { s with InactiveSet := mapErase s.InactiveSet id } := by
    simp [applyStateUpdate, Ticket, Activate]
  refine ⟨by rw [happ], by rw [happ], by rw [happ], ?_⟩
  intro hnone
  rw [happ, mapErase_eq_self_of_lookup_none _ _ hnone]

/-- Witness for `c8_activate_frame` at a concrete state and id. -/
theorem c8_activate_frame_witness :
    (applyStateUpdate ⟨[("a", ⟨"a", 3⟩)], [("b", true)], []⟩
        ⟨Activate, "b", .empty⟩).Tickets = [("a", ⟨"a", 3⟩)] ∧
    (applyStateUpdate ⟨[("a", ⟨"a", 3⟩)], [("b", true)], []⟩
        ⟨Activate, "b", .empty⟩).Assignments = [] ∧
    (applyStateUpdate ⟨[("a", ⟨"a", 3⟩)], [("b", true)], []⟩
        ⟨Activate, "b", .empty⟩).InactiveSet = mapErase [("b", true)] "b" ∧
    (mapLookup [("b", true)] "b" = none →
      applyStateUpdate ⟨[("a", ⟨"a", 3⟩)], [("b", true)], []⟩
        ⟨Activate, "b", .empty⟩ = ⟨[("a", ⟨"a", 3⟩)], [("b", true)], []⟩) :=
  c8_activate_frame ⟨[("a", ⟨"a", 3⟩)], [("b", true)], []⟩ "b" .empty

/-- Transitivity of the timestamp-then-sequence order. -/
theorem replIdLt_trans (a b c : Int × Nat)
    (h1 : replIdLt a b) (h2 : replIdLt b c) : replIdLt a c := by
  rcases h1 with h1 | ⟨h1, h1'⟩ <;> rcases h2 with h2 | ⟨h2, h2'⟩
  · exact Or.inl (lt_trans h1 h2)
  · exact Or.inl (h2 ▸ h1)
  · exact Or.inl (h1 ▸ h2)
  · exact Or.inr ⟨h1.trans h2, lt_trans h1' h2'⟩

/-- `emitAll` over a concatenation of reading lists. -/
theorem emitAll_append (a b : List Int) (st : MemState) :
    emitAll (a ++ b) st =
      ((emitAll a st).1 ++ (emitAll b (emitAll a st).2).1,
       (emitAll b (emitAll a st).2).2) := by
  induction a generalizing st with
  | nil => simp [emitAll]
  | cons n t ih => simp [emitAll, ih]

/-- The responses of `memorySendUpdates` carry exactly the rendered
`emitAll` pairs, and it finishes in the `emitAll` final state. -/
theorem memorySendUpdates_emit (nows : List Int) (st : MemState)
    (us : List StateUpdate) (h : nows.length = us.length) :
    (memorySendUpdates nows st us).1.map (fun r => r.Result) =
      (emitAll nows st).1.map (fun p => idString p.1 p.2) ∧
    (memorySendUpdates nows st us).2.2 = (emitAll nows st).2 := by
  induction us generalizing nows st with
  | nil =>
    cases nows with
    | nil => simp [memorySendUpdates, emitAll]
    | cons n t => simp at h
  | cons u ut ih =>
    cases nows with
    | nil => simp at h
    | cons n nt =>
      have h' : nt.length = ut.length := by simpa using h
      obtain ⟨e1, e2⟩ := ih nt (stepRepl n st) h'
      exact ⟨by simp [memorySendUpdates, emitAll, getReplId, e1],
             by simp [memorySendUpdates, emitAll, getReplId, e2]⟩

/-- Every timestamp emitted by `emitAll` is one of the clock readings. -/
theorem emitAll_ts_mem (nows : List Int) (st : MemState) :
    ∀ p ∈ (emitAll nows st).1, p.1 ∈ nows := by
  induction nows generalizing st with
  | nil => simp [emitAll]
  | cons n t ih =>
    intro p hp
    rw [show (emitAll (n :: t) st).1 =
      ((stepRepl n st).replTSms, (stepRepl n st).replCount) ::
        (emitAll t (stepRepl n st)).1 from rfl] at hp
    rcases List.mem_cons.mp hp with hp | hp
    · have hts : (stepRepl n st).replTSms = n := by
        by_cases hn : n = st.replTSms <;> simp [stepRepl, hn]
      rw [hp]
      simp [hts]
    · exact List.mem_cons_of_mem n (ih (stepRepl n st) p hp)

/-- Under a nondecreasing clock that never precedes the stored
timestamp, the emitted (timestamp, sequence) pairs strictly increase
from the initial state's pair. -/
theorem emitAll_pairwise (nows : List Int) (st : MemState)
    (hle : ∀ n ∈ nows, st.replTSms ≤ n)
    (hmono : nows.Pairwise (· ≤ ·)) :
    List.Pairwise replIdLt
      ((st.replTSms, st.replCount) :: (emitAll nows st).1) := by
  induction nows generalizing st with
  | nil => simp [emitAll]
  | cons n t ih =>
    have hst : st.replTSms ≤ n := hle n (List.mem_cons_self n t)
    obtain ⟨hlt, hmono'⟩ := List.pairwise_cons.mp hmono
    have hle' : ∀ m ∈ t, (stepRepl n st).replTSms ≤ m := by
      intro m hm
      have h2 := hlt m hm
      by_cases hn : n = st.replTSms <;> simp [stepRepl, hn] <;> omega
    have hIH := ih (stepRepl n st) hle' hmono'
    have hstep : replIdLt (st.replTSms, st.replCount)
        ((stepRepl n st).replTSms, (stepRepl n st).replCount) := by
      by_cases hn : n = st.replTSms
      · exact Or.inr ⟨by simp [stepRepl, hn], by simp [stepRepl, hn]⟩
      · refine Or.inl ?_
        have : (stepRepl n st).replTSms = n := by simp [stepRepl, hn]
        rw [this]
        rcases lt_or_eq_of_le hst with h | h
        · exact h
        · exact absurd h.symm hn
    rw [show (emitAll (n :: t) st).1 =
      ((stepRepl n st).replTSms, (stepRepl n st).replCount) ::
        (emitAll t (stepRepl n st)).1 from rfl]
    refine List.pairwise_cons.mpr ⟨?_, hIH⟩
    intro q hq
    rcases List.mem_cons.mp hq with hq | hq
    · rw [hq]
      exact hstep
    · exact replIdLt_trans _ _ _ hstep
        ((List.pairwise_cons.mp hIH).1 q hq)

/-- The character of a decimal digit is a digit character. -/
theorem digitChar_isDigit (d : Nat) (h : d < 10) :
    (digitChar d).isDigit = true := by
  interval_cases d <;> decide

/-- Every character emitted by `natDecimal` is a digit. -/
theorem natDecimal_all_digits (n : Nat) :
    ∀ c ∈ natDecimal n, c.isDigit = true := by
  induction n using Nat.strong_induction_on with
  | _ n ih =>
    rw [natDecimal]
    by_cases h : n < 10
    · rw [dif_pos h]
      intro c hc
      rw [List.mem_singleton.mp hc]
      exact digitChar_isDigit n h
    · rw [dif_neg h]
      intro c hc
      rcases List.mem_append.mp hc with h1 | h1
      · exact ih (n / 10) (Nat.div_lt_self (by omega) (by omega)) c h1
      · rw [List.mem_singleton.mp h1]
        exact digitChar_isDigit (n % 10) (Nat.mod_lt n (by omega))

/-- `natDecimal` never produces the empty list. -/
theorem natDecimal_ne_nil (n : Nat) : natDecimal n ≠ [] := by
  rw [natDecimal]
  by_cases h : n < 10
  · rw [dif_pos h]
    simp
  · rw [dif_neg h]
    simp

/-- Numbers in `[10^k, 10^(k+1))` render to `k + 1` digits. -/
theorem natDecimal_length :
    ∀ (k n : Nat), 10 ^ k ≤ n → n < 10 ^ (k + 1) →
      (natDecimal n).length = k + 1 := by
  intro k
  induction k with
  | zero =>
    intro n _ h2
    rw [natDecimal, dif_pos (by simpa using h2)]
    simp
  | succ k ih =>
    intro n h1 h2
    have hten : (10 : Nat) ≤ 10 ^ (k + 1) := by
      calc (10 : Nat) = 10 ^ 1 := (pow_one 10).symm
      _ ≤ 10 ^ (k + 1) := Nat.pow_le_pow_right (by omega) (by omega)
    have h10 : ¬ n < 10 := by omega
    rw [natDecimal, dif_neg h10, List.length_append]
    have hdiv1 : 10 ^ k ≤ n / 10 := by
      rw [Nat.le_div_iff_mul_le (by omega)]
      calc 10 ^ k * 10 = 10 ^ (k + 1) := (pow_succ 10 k).symm
      _ ≤ n := h1
    have hdiv2 : n / 10 < 10 ^ (k + 1) := by
      rw [Nat.div_lt_iff_lt_mul (by omega)]
      calc n < 10 ^ (k + 1 + 1) := h2
      _ = 10 ^ (k + 1) * 10 := pow_succ 10 (k + 1)
    rw [ih (n / 10) hdiv1 hdiv2]
    simp

/-- `matchesReplId` unfolded on an explicit character list. -/
theorem matchesReplId_mk (l : List Char) :
    matchesReplId (String.mk l) =
      (decide ((l.take 13).length = 13) &&
        (l.take 13).all (fun c => c.isDigit) &&
        (match l.drop 13 with
         | '-' :: rest => decide (rest ≠ []) && rest.all (fun c => c.isDigit)
         | _ => false)) := rfl

/-- Ids rendered from a 13-digit millisecond timestamp match the
validator pattern of both replicators. -/
theorem matchesReplId_idString (ts : Int) (cnt : Nat)
    (h1 : 1000000000000 ≤ ts) (h2 : ts < 10000000000000) :
    matchesReplId (idString ts cnt) = true := by
  have hts0 : ¬ ts < 0 := by omega
  have hint : intDecimal ts = natDecimal ts.toNat := by
    rw [intDecimal, if_neg hts0]
  have hA : (natDecimal ts.toNat).length = 13 := by
    have e12 : (10 : Nat) ^ 12 = 1000000000000 := by norm_num
    have e13 : (10 : Nat) ^ 13 = 10000000000000 := by norm_num
    have hlo : 10 ^ 12 ≤ ts.toNat := by omega
    have hhi : ts.toNat < 10 ^ (12 + 1) := by
      have : (12 : Nat) + 1 = 13 := rfl
      rw [this, e13]
      omega
    exact natDecimal_length 12 ts.toNat hlo hhi
  rw [idString, hint, matchesReplId_mk]
  rw [← hA, List.take_left, List.drop_left]
  simp only [hA]
  simp [List.all_eq_true, natDecimal_ne_nil]
  exact ⟨natDecimal_all_digits _, natDecimal_all_digits _⟩

/-- C9: for the in-memory replicator under a nondecreasing millisecond
clock (13-digit readings never preceding the stored timestamp), two
sequential SendUpdates calls with batches of sizes 3 and 5 yield
replication ids that all match the validator pattern, and whose
(timestamp, sequence) pairs strictly increase in the
timestamp-then-sequence order, within each batch and across both. -/
theorem c9_memory_ids_increasing (us1 us2 : List StateUpdate)
    (nows1 nows2 : List Int) (st : MemState)
    (hu1 : us1.length = 3) (hu2 : us2.length = 5)
    (hn1 : nows1.length = 3) (hn2 : nows2.length = 5)
    (hmono : (nows1 ++ nows2).Pairwise (· ≤ ·))
    (hle : ∀ n ∈ nows1 ++ nows2, st.replTSms ≤ n)
    (hrange : ∀ n ∈ nows1 ++ nows2,
      1000000000000 ≤ n ∧ n < 10000000000000) :
    ∃ ps : List (Int × Nat),
      ((memorySendUpdates nows1 st us1).1 ++
        (memorySendUpdates nows2 (memorySendUpdates nows1 st us1).2.2 us2).1).map
          (fun r => r.Result) =
        ps.map (fun p => idString p.1 p.2) ∧
      ps.Pairwise replIdLt ∧
      ∀ r ∈ (memorySendUpdates nows1 st us1).1 ++
          (memorySendUpdates nows2 (memorySendUpdates nows1 st us1).2.2 us2).1,
        matchesReplId r.Result = true := by
  obtain ⟨e1, efin⟩ := memorySendUpdates_emit nows1 st us1 (by omega)
  obtain ⟨e2, _⟩ :=
    memorySendUpdates_emit nows2 (emitAll nows1 st).2 us2 (by omega)
  have hmapeq :
      ((memorySendUpdates nows1 st us1).1 ++
        (memorySendUpdates nows2 (memorySendUpdates nows1 st us1).2.2 us2).1).map
          (fun r => r.Result) =
        (emitAll (nows1 ++ nows2) st).1.map (fun p => idString p.1 p.2) := by
    rw [List.map_append, e1, efin, e2, emitAll_append, List.map_append]
  refine ⟨(emitAll (nows1 ++ nows2) st).1, hmapeq, ?_, ?_⟩
  · exact (List.pairwise_cons.mp
      (emitAll_pairwise (nows1 ++ nows2) st hle hmono)).2
  · intro r hr
    have hmem : r.Result ∈
        (emitAll (nows1 ++ nows2) st).1.map (fun p => idString p.1 p.2) := by
      rw [← hmapeq]
      exact List.mem_map_of_mem (fun r => r.Result) hr
    obtain ⟨p, hp, hpe⟩ := List.mem_map.mp hmem
    obtain ⟨hlo, hhi⟩ := hrange p.1 (emitAll_ts_mem (nows1 ++ nows2) st p hp)
    rw [← hpe]
    exact matchesReplId_idString p.1 p.2 hlo hhi

/-- Witness for `c9_memory_ids_increasing` on two concrete batches
(sizes 3 and 5) with repeated and advancing clock readings. -/
theorem c9_memory_ids_increasing_witness :
    ([⟨Activate, "a", .empty⟩, ⟨Activate, "b", .empty⟩,
      ⟨Activate, "c", .empty⟩] : List StateUpdate).length = 3 ∧
    ([⟨Activate, "d", .empty⟩, ⟨Activate, "e", .empty⟩,
      ⟨Activate, "f", .empty⟩, ⟨Activate, "g", .empty⟩,
      ⟨Activate, "h", .empty⟩] : List StateUpdate).length = 5 ∧
    ([1700000000000, 1700000000000, 1700000000001] : List Int).length = 3 ∧
    ([1700000000001, 1700000000002, 1700000000002,
      1700000000003, 1700000000004] : List Int).length = 5 ∧
    (([1700000000000, 1700000000000, 1700000000001] : List Int) ++
      [1700000000001, 1700000000002, 1700000000002,
       1700000000003, 1700000000004]).Pairwise (· ≤ ·) ∧
    (∀ n ∈ ([1700000000000, 1700000000000, 1700000000001] : List Int) ++
        [1700000000001, 1700000000002, 1700000000002,
         1700000000003, 1700000000004],
      (MemState.mk 1700000000000 0).replTSms ≤ n) ∧
    (∀ n ∈ ([1700000000000, 1700000000000, 1700000000001] : List Int) ++
        [1700000000001, 1700000000002, 1700000000002,
         1700000000003, 1700000000004],
      1000000000000 ≤ n ∧ n < 10000000000000) ∧
    (∃ ps : List (Int × Nat),
      ((memorySendUpdates [1700000000000, 1700000000000, 1700000000001]
          ⟨1700000000000, 0⟩
          [⟨Activate, "a", .empty⟩, ⟨Activate, "b", .empty⟩,
           ⟨Activate, "c", .empty⟩]).1 ++
        (memorySendUpdates
          [1700000000001, 1700000000002, 1700000000002,
           1700000000003, 1700000000004]
          (memorySendUpdates [1700000000000, 1700000000000, 1700000000001]
            ⟨1700000000000, 0⟩
            [⟨Activate, "a", .empty⟩, ⟨Activate, "b", .empty⟩,
             ⟨Activate, "c", .empty⟩]).2.2
          [⟨Activate, "d", .empty⟩, ⟨Activate, "e", .empty⟩,
           ⟨Activate, "f", .empty⟩, ⟨Activate, "g", .empty⟩,
           ⟨Activate, "h", .empty⟩]).1).map (fun r => r.Result) =
        ps.map (fun p => idString p.1 p.2) ∧
      ps.Pairwise replIdLt ∧
      ∀ r ∈ (memorySendUpdates [1700000000000, 1700000000000, 1700000000001]
          ⟨1700000000000, 0⟩
          [⟨Activate, "a", .empty⟩, ⟨Activate, "b", .empty⟩,
           ⟨Activate, "c", .empty⟩]).1 ++
        (memorySendUpdates
          [1700000000001, 1700000000002, 1700000000002,
           1700000000003, 1700000000004]
          (memorySendUpdates [1700000000000, 1700000000000, 1700000000001]
            ⟨1700000000000, 0⟩
            [⟨Activate, "a", .empty⟩, ⟨Activate, "b", .empty⟩,
             ⟨Activate, "c", .empty⟩]).2.2
          [⟨Activate, "d", .empty⟩, ⟨Activate, "e", .empty⟩,
           ⟨Activate, "f", .empty⟩, ⟨Activate, "g", .empty⟩,
           ⟨Activate, "h", .empty⟩]).1,
        matchesReplId r.Result = true) :=
  ⟨by decide, by decide, by decide, by decide, by decide, by decide, by decide,
   c9_memory_ids_increasing
     [⟨Activate, "a", .empty⟩, ⟨Activate, "b", .empty⟩,
      ⟨Activate, "c", .empty⟩]
     [⟨Activate, "d", .empty⟩, ⟨Activate, "e", .empty⟩,
      ⟨Activate, "f", .empty⟩, ⟨Activate, "g", .empty⟩,
      ⟨Activate, "h", .empty⟩]
     [1700000000000, 1700000000000, 1700000000001]
     [1700000000001, 1700000000002, 1700000000002,
      1700000000003, 1700000000004]
     ⟨1700000000000, 0⟩
     (by decide) (by decide) (by decide) (by decide)
     (by decide) (by decide) (by decide)⟩

/-- C10: the in-memory replicator mutates its input batch in place —
each forwarded element is the caller's own update, with the Key field
overwritten by the freshly assigned replication id exactly when the
command is CreateTicket (and untouched otherwise), and one response is
produced per input element. -/
theorem c10_memory_mutates_batch (nows : List Int) (st : MemState)
    (us : List StateUpdate) (h : nows.length = us.length) :
    (memorySendUpdates nows st us).2.1 =
      List.zipWith
        (fun u r => if u.Cmd = Ticket then { u with Key := r.Result } else u)
        us (memorySendUpdates nows st us).1 ∧
    (memorySendUpdates nows st us).1.length = us.length := by
  induction us generalizing nows st with
  | nil => cases nows <;> simp [memorySendUpdates]
  | cons u ut ih =>
    cases nows with
    | nil => simp at h
    | cons n nt =>
      have h' : nt.length = ut.length := by simpa using h
      obtain ⟨ih1, ih2⟩ := ih nt (stepRepl n st) h'
      refine ⟨?_, ?_⟩
      · simp only [memorySendUpdates, getReplId, List.zipWith_cons_cons]
        rw [← ih1]
      · simp only [memorySendUpdates, getReplId, List.length_cons]
        rw [ih2]

/-- Witness for `c10_memory_mutates_batch` on a two-element batch
(one CreateTicket, one Activate). -/
theorem c10_memory_mutates_batch_witness :
    ([1700000000000, 1700000000000] : List Int).length =
      ([⟨Ticket, "caller-key", .empty⟩, ⟨Activate, "x", .empty⟩] :
        List StateUpdate).length ∧
    ((memorySendUpdates [1700000000000, 1700000000000] ⟨1699999999999, 4⟩
        [⟨Ticket, "caller-key", .empty⟩, ⟨Activate, "x", .empty⟩]).2.1 =
      List.zipWith
        (fun u r => if u.Cmd = Ticket then { u with Key := r.Result } else u)
        [⟨Ticket, "caller-key", .empty⟩, ⟨Activate, "x", .empty⟩]
        (memorySendUpdates [1700000000000, 1700000000000] ⟨1699999999999, 4⟩
          [⟨Ticket, "caller-key", .empty⟩, ⟨Activate, "x", .empty⟩]).1 ∧
    (memorySendUpdates [1700000000000, 1700000000000] ⟨1699999999999, 4⟩
        [⟨Ticket, "caller-key", .empty⟩, ⟨Activate, "x", .empty⟩]).1.length =
      ([⟨Ticket, "caller-key", .empty⟩, ⟨Activate, "x", .empty⟩] :
        List StateUpdate).length) :=
  ⟨by decide,
   c10_memory_mutates_batch [1700000000000, 1700000000000] ⟨1699999999999, 4⟩
     [⟨Ticket, "caller-key", .empty⟩, ⟨Activate, "x", .empty⟩] (by decide)⟩

end OM
